import Mathlib

/-!
Shallow embedding of the rate-cache-and-conversion subsystem of the
valutatrade_hub repository.

Sources embedded here:
  * `src/valutatrade_hub/parser_service/storage.py`  (class `RatesStorage`)
  * `src/valutatrade_hub/parser_service/updater.py`  (class `RatesUpdater`)
  * `src/valutatrade_hub/parser_service/config.py`   (class `ParserConfig`)
  * `src/valutatrade_hub/core/usecases.py`           (class `PortfolioManager`,
    methods `get_exchange_rate`, `_get_rate_via_usd`, `_convert_via_usd`)

Modelling conventions:
  * Python `float` rates are modelled as `ℚ` (exact arithmetic; the spec's
    "within floating-point tolerance" becomes exact equality in this model).
  * Python `dict` is modelled as an insertion-ordered association list
    `List (String × α)`; `dictLookup` is key lookup, `dictInsert` is
    `d[k] = v` (replace in place, else append), `dictUpdate` is `d.update(e)`.
  * `datetime.now()` is modelled by an abstract clock `ℕ → String` together
    with a tick counter that advances on every `now()` call, so distinct
    calls may (and in reality do) observe distinct timestamps.
  * Python expressions that can raise `ZeroDivisionError` are modelled with
    `Except Unit`: `pyDiv a b` is `a / b` in Python.
  * `json.load` / `datetime.fromisoformat` are modelled as abstract partial
    decoding functions passed as parameters (`none` = the Python call raises
    a decode error, which the source catches).
-/

/-- Python division `a / b`: raises `ZeroDivisionError` when `b = 0`. -/
def pyDiv (a b : ℚ) : Except Unit ℚ :=
  if b = 0 then .error () else .ok (a / b)

/-- Lookup in an insertion-ordered dict (first binding wins; dicts built by
`dictInsert` have unique keys, so this is the Python `d[k]` / `k in d`). -/
def dictLookup {α : Type} (k : String) : List (String × α) → Option α
  | [] => none
  | (k', v) :: rest => if k' = k then some v else dictLookup k rest

/-- In-place overwrite of a single binding: the entry whose key is `k` is
replaced by `(k, v)`, every other entry is untouched. -/
def setPair {α : Type} (k : String) (v : α) (p : String × α) : String × α :=
  if p.1 = k then (k, v) else p

/-- Python `d[k] = v` on an insertion-ordered dict: replace the value in
place if the key is present, otherwise append the new binding. -/
def dictInsert {α : Type} (k : String) (v : α) (d : List (String × α)) :
    List (String × α) :=
  if (dictLookup k d).isSome then
    d.map (setPair k v)
  else
    d ++ [(k, v)]

/-- Python `d.update(e)`: fold `dictInsert` over the items of `e`. -/
def dictUpdate {α : Type} (d e : List (String × α)) : List (String × α) :=
  e.foldl (fun acc p => dictInsert p.1 p.2 acc) d

/-- The last binding of a key in an item list (the value Python `update`
keeps when the same key occurs several times). -/
def lookupLast {α : Type} (k : String) : List (String × α) → Option α
  | [] => none
  | (k', v) :: rest =>
    match lookupLast k rest with
    | some w => some w
    | none => if k' = k then some v else none

/-- Embeds `config.BASE_CURRENCY` from `parser_service/config.py`. -/
def BASE_CURRENCY : String := "USD"

/-- Embeds `config.CACHE_TTL_SECONDS` from `parser_service/config.py` (seconds). -/
def CACHE_TTL_SECONDS : ℚ := 300

/-- One value of the `pairs` mapping of `rates.json`
(see `RatesStorage.save_current_rates`). -/
structure PairData where
  rate : ℚ
  updated_at : String
  source : String
  from_currency : String
  to_currency : String
deriving DecidableEq, Repr

/-- The content of `rates.json` (the snapshot). `source`/`meta` are absent
(`none`) in the default snapshot returned on a missing or corrupt file. -/
structure RatesData where
  last_refresh : Option String
  source : Option String
  pairs : List (String × PairData)
  meta : Option String
deriving DecidableEq, Repr

/-- One record of the history file `exchange_rates.json`
(see `RatesStorage.save_to_history`). `rawPair` is `meta["raw_pair"]`. -/
structure HistRecord where
  id : String
  from_currency : String
  to_currency : String
  rate : ℚ
  timestamp : String
  source : String
  rawPair : String
  meta : Option String
deriving DecidableEq, Repr

/-- The default snapshot `{"pairs": {}, "last_refresh": None}` used by
`RatesStorage.load_current_rates` when the file is absent or corrupt. -/
def emptyRatesData : RatesData :=
  { last_refresh := none, source := none, pairs := [], meta := none }

/-- Embeds `RatesStorage._load_json` + `RatesStorage.load_current_rates`:
the file system state is `file : Option String` (content, or `none` when the
file does not exist); `decode` models `json.load` reading `rates.json`
(`none` = `json.JSONDecodeError`).  Absent or undecodable content yields the
default `{"pairs": {}, "last_refresh": None}`. -/
def load_current_rates (decode : String → Option RatesData)
    (file : Option String) : RatesData :=
  match file with
  | none => emptyRatesData
  | some s =>
    match decode s with
    | some d => d
    | none => emptyRatesData

/-- Embeds `RatesStorage.is_cache_fresh`: loads the snapshot, returns `false` when
`last_refresh` is falsy (`None` or `""`) or cannot be parsed
(`datetime.fromisoformat` raising is `parseIso s = none`); otherwise fresh
iff `now - last_update <= config.CACHE_TTL_SECONDS`.  `now` and parsed
timestamps are in seconds. -/
def is_cache_fresh (decode : String → Option RatesData)
    (parseIso : String → Option ℚ) (now ttl : ℚ) (file : Option String) :
    Bool :=
  match (load_current_rates decode file).last_refresh with
  | none => false
  | some s =>
    if s = "" then false
    else
      match parseIso s with
      | some t => decide (now - t ≤ ttl)
      | none => false

/-- Split a character list at the first `'_'` (the characters before it and
after it), or `none` when no `'_'` occurs. -/
def splitFirstUnderscore : List Char → Option (List Char × List Char)
  | [] => none
  | c :: cs =>
    if c = '_' then some ([], cs)
    else (splitFirstUnderscore cs).map (fun p => (c :: p.1, p.2))

/-- Embeds `pair_key.split("_", 1)` guarded by `if "_" in pair_key` with the
fallback of `save_current_rates`/`save_to_history`: a key without `_`
denotes the pair against the base currency. -/
def splitPair (k : String) : String × String :=
  match splitFirstUnderscore k.data with
  | some (a, b) => (String.mk a, String.mk b)
  | none => (k, BASE_CURRENCY)

/-- Embeds `RatesStorage.save_current_rates`: builds the snapshot from the rate map
with `timestamp = datetime.now().isoformat()` (one clock read for the whole
write), and returns it together with the advanced clock tick. -/
def save_current_rates (clock : ℕ → String) (tick : ℕ)
    (rates : List (String × ℚ)) (source : String) (metaO : Option String) :
    RatesData × ℕ :=
  let timestamp := clock tick
  let pairs_data := rates.foldl
    (fun acc p =>
      dictInsert p.1
        { rate := p.2
          updated_at := timestamp
          source := source
          from_currency := (splitPair p.1).1
          to_currency := (splitPair p.1).2 } acc)
    []
  ({ last_refresh := some timestamp
     source := some source
     pairs := pairs_data
     meta := metaO }, tick + 1)

/-- Embeds `timestamp.replace(':', '-').replace('.', '-')`: both patterns are
single characters, so the two substring replacements amount to a
character-wise map. -/
def sanitizeTimestamp (s : String) : String :=
  String.mk (s.data.map (fun c =>
    if c = ':' then '-' else if c = '.' then '-' else c))

/-- The `record_id` of `RatesStorage.save_to_history`:
`f"{pair_key}_{timestamp.replace(':', '-').replace('.', '-')}"`. -/
def historyRecordId (pairKey timestamp : String) : String :=
  pairKey ++ "_" ++ sanitizeTimestamp timestamp

/-- Embeds `RatesStorage.save_to_history`: reads `datetime.now()` once, appends one
record per rate entry to the existing history, and returns
(new history, saved records, advanced tick). -/
def save_to_history (clock : ℕ → String) (tick : ℕ)
    (history : List HistRecord) (rates : List (String × ℚ))
    (source : String) (metaO : Option String) :
    List HistRecord × List HistRecord × ℕ :=
  let timestamp := clock tick
  let records := rates.map (fun p =>
    { id := historyRecordId p.1 timestamp
      from_currency := (splitPair p.1).1
      to_currency := (splitPair p.1).2
      rate := p.2
      timestamp := timestamp
      source := source
      rawPair := p.1
      meta := metaO })
  (history ++ records, records, tick + 1)

/-- Embeds `RatesStorage.get_rate(from_currency, to_currency=None)`: identity `1.0`
for equal currencies, then direct pair, then reciprocal of the reverse pair
with a zero rate yielding `None`; `to_currency or config.BASE_CURRENCY`
resolves a falsy target (`None` or `""`) to the base currency. -/
def get_rate (pairs : List (String × PairData)) (from_currency : String)
    (to_currency : Option String) : Option ℚ :=
  let toC :=
    match to_currency with
    | none => BASE_CURRENCY
    | some s => if s = "" then BASE_CURRENCY else s
  if from_currency = toC then some 1
  else
    match dictLookup (from_currency ++ "_" ++ toC) pairs with
    | some pd => some pd.rate
    | none =>
      match dictLookup (toC ++ "_" ++ from_currency) pairs with
      | some pd => if pd.rate ≠ 0 then some (1 / pd.rate) else none
      | none => none

/-- Embeds `RatesStorage.load_history` pipeline — the truncation `history[:limit]`
with Python slice semantics for a possibly negative bound. -/
def pySliceTo {α : Type} (n : ℤ) (l : List α) : List α :=
  if 0 ≤ n then l.take n.toNat else l.take (l.length - n.natAbs)

/-- Stable insertion into a list sorted by descending timestamp, keeping
earlier elements first among equal keys (Python `list.sort` is stable). -/
def insertByTimestampDesc (r : HistRecord) : List HistRecord → List HistRecord
  | [] => [r]
  | x :: xs =>
    if r.timestamp ≤ x.timestamp then x :: insertByTimestampDesc r xs
    else r :: x :: xs

/-- Embeds `history.sort(key=lambda x: x.get("timestamp", ""), reverse=True)`. -/
def sortByTimestampDesc (l : List HistRecord) : List HistRecord :=
  l.foldl (fun acc r => insertByTimestampDesc r acc) []

/-- Embeds `RatesStorage.load_history(limit=None, currency=None)`: filter on either
leg when `currency` is truthy, sort newest-first, then truncate only when
`limit` is truthy (`if limit:` — so `limit=0` and `limit=None` both skip the
truncation). -/
def load_history (history : List HistRecord) (limit : Option ℤ)
    (currency : Option String) : List HistRecord :=
  let filtered :=
    match currency with
    | none => history
    | some c =>
      if c = "" then history
      else
        let cu := c.toUpper
        history.filter (fun r => r.from_currency = cu || r.to_currency = cu)
  let sorted := sortByTimestampDesc filtered
  match limit with
  | none => sorted
  | some n => if n ≠ 0 then pySliceTo n sorted else sorted

/-- Embeds `PortfolioManager._get_rate_via_usd(currency, rates)`: the rate of
`currency` against USD — identity, direct pair, or unguarded reciprocal of
the reverse pair (`1 / rates[reverse_key]["rate"]`, which raises
`ZeroDivisionError` on a zero stored rate). -/
def _get_rate_via_usd (rates : List (String × PairData)) (currency : String) :
    Except Unit (Option ℚ) :=
  if currency = "USD" then .ok (some 1)
  else
    match dictLookup (currency ++ "_USD") rates with
    | some pd => .ok (some pd.rate)
    | none =>
      match dictLookup ("USD_" ++ currency) rates with
      | some pd => (pyDiv 1 pd.rate).map some
      | none => .ok none

/-- The cached-resolution core of `PortfolioManager.get_exchange_rate`
(usecases.py lines 377–401): direct pair, else unguarded reciprocal of the
reverse pair (`rate = 1 / rate_data["rate"]`), else the via-USD branch
`rate = usd_rate_to / usd_rate_from` guarded by Python truthiness of both
legs.  Returns `.ok (some (rate, source))` when resolved from the cache,
`.ok none` when `rate` stays `None` (the code then falls through to the
refresh-and-retry path, which performs I/O and is outside this model), and
`.error ()` for a `ZeroDivisionError`. -/
def get_exchange_rate (rates : List (String × PairData))
    (from_currency to_currency : String) :
    Except Unit (Option (ℚ × String)) :=
  let rate_key := from_currency ++ "_" ++ to_currency
  let reverse_key := to_currency ++ "_" ++ from_currency
  match dictLookup rate_key rates with
  | some pd => .ok (some (pd.rate, "cache"))
  | none =>
    match dictLookup reverse_key rates with
    | some pd => (pyDiv 1 pd.rate).map (fun r => some (r, "cache"))
    | none => do
      let usd_rate_from ← _get_rate_via_usd rates from_currency
      let usd_rate_to ← _get_rate_via_usd rates to_currency
      match usd_rate_from, usd_rate_to with
      | some f, some t =>
        if f ≠ 0 ∧ t ≠ 0 then
          (pyDiv t f).map (fun r => some (r, "calculated_via_USD"))
        else .ok none
      | _, _ => .ok none

/-- Second stage of `PortfolioManager._convert_via_usd`: convert a USD
amount into `to_currency` (direct `USD_to` pair, else unguarded division by
the `to_USD` pair, else `0.0`). -/
def convertUsdToTarget (rates : List (String × PairData)) (usd_amount : ℚ)
    (to_currency : String) : Except Unit ℚ :=
  match dictLookup ("USD_" ++ to_currency) rates with
  | some pd => .ok (usd_amount * pd.rate)
  | none =>
    match dictLookup (to_currency ++ "_USD") rates with
    | some pd => pyDiv usd_amount pd.rate
    | none => .ok 0

/-- Embeds `PortfolioManager._convert_via_usd(amount, from_currency, to_currency,
rates)`: convert `amount` of `from_currency` into USD (returning `0.0`
early when neither leg is known), then into `to_currency`; the divisions
carry no zero guard. -/
def _convert_via_usd (rates : List (String × PairData)) (amount : ℚ)
    (from_currency to_currency : String) : Except Unit ℚ :=
  match dictLookup (from_currency ++ "_USD") rates with
  | some pd => convertUsdToTarget rates (amount * pd.rate) to_currency
  | none =>
    match dictLookup ("USD_" ++ from_currency) rates with
    | some pd => do
      let usd_amount ← pyDiv amount pd.rate
      convertUsdToTarget rates usd_amount to_currency
    | none => .ok 0

/-- Result of one client's `fetch_rates()` inside `RatesUpdater.run_update`:
a rate map, or an exception caught by one of the two `except` clauses
(`ApiRequestError` / generic `Exception`), carrying `str(e)`. -/
inductive FetchResult where
  | ok (rates : List (String × ℚ))
  | apiError (msg : String)
  | otherError (msg : String)
deriving DecidableEq, Repr

/-- Whether a fetch result was caught by an `except` clause. -/
def FetchResult.isError : FetchResult → Bool
  | .ok _ => false
  | .apiError _ => true
  | .otherError _ => true

/-- One entry of `statistics["sources"]` in `RatesUpdater.run_update`.
On success `error = none` and `ratesPreview` holds the first five keys; on
error `error = some (str(e))` (stored verbatim) and `ratesPreview = []`. -/
structure SourceStat where
  status : String
  rates_count : ℕ
  error : Option String
  ratesPreview : List String
deriving DecidableEq, Repr

/-- The value returned by `RatesUpdater.run_update` (its `statistics` dict),
together with the writes it performed (`savedSnapshot` / `savedHistory` are
what `save_current_rates` / `save_to_history` produced, `none` / `[]` when
no rates were obtained). `mergedRates` is the local `all_rates` map. -/
structure UpdateResult where
  started_at : String
  sources : List (String × SourceStat)
  total_rates : ℕ
  errors : List String
  mergedRates : List (String × ℚ)
  savedSnapshot : Option RatesData
  savedHistory : List HistRecord
  success : Bool
  completed_at : String
deriving DecidableEq, Repr

/-- One iteration of the source loop of `RatesUpdater.run_update`:
on success `all_rates.update(rates)` and a success stat; on either caught
exception the merged map is untouched, an error stat stores the message
verbatim, and a formatted message is appended to `statistics["errors"]`. -/
def runStep (acc : List (String × ℚ) × List (String × SourceStat) × List String)
    (c : String × FetchResult) :
    List (String × ℚ) × List (String × SourceStat) × List String :=
  match c.2 with
  | .ok rates =>
    (dictUpdate acc.1 rates,
     dictInsert c.1
       { status := "success", rates_count := rates.length, error := none
         ratesPreview := (rates.map Prod.fst).take 5 } acc.2.1,
     acc.2.2)
  | .apiError msg =>
    (acc.1,
     dictInsert c.1
       { status := "error", rates_count := 0, error := some msg
         ratesPreview := [] } acc.2.1,
     acc.2.2 ++ ["Failed to fetch from " ++ c.1 ++ ": " ++ msg])
  | .otherError msg =>
    (acc.1,
     dictInsert c.1
       { status := "error", rates_count := 0, error := some msg
         ratesPreview := [] } acc.2.1,
     acc.2.2 ++ ["Unexpected error from " ++ c.1 ++ ": " ++ msg])

/-- The whole source loop of `RatesUpdater.run_update`, started from an
empty merged map, empty statistics and empty error list. -/
def runLoop (clients : List (String × FetchResult)) :
    List (String × ℚ) × List (String × SourceStat) × List String :=
  clients.foldl runStep ([], [], [])

/-- Embeds `main_source` selection in `RatesUpdater.run_update`: the first source
whose stat is `"success"`, defaulting to `"mixed"`. -/
def mainSourceOf : List (String × SourceStat) → String
  | [] => "mixed"
  | (name, st) :: rest =>
    if st.status = "success" then name else mainSourceOf rest

/-- Embeds `RatesUpdater.run_update`: query every client, isolating failures;
persist snapshot and history only when the merged map is non-empty; never
raise — a zero-rate cycle just yields `success = false`.  The clock ticks
consumed are: `started_at`, then (non-empty branch) the `update_id` in
`meta`, one inside `save_current_rates`, one inside `save_to_history`, and
finally `completed_at`. -/
def run_update (clock : ℕ → String) (tick : ℕ)
    (clients : List (String × FetchResult))
    (existingHistory : List HistRecord) : UpdateResult × ℕ :=
  let started_at := clock tick
  let t0 := tick + 1
  let loopRes := runLoop clients
  let all_rates := loopRes.1
  let sources := loopRes.2.1
  let errors := loopRes.2.2
  if all_rates.isEmpty then
    ({ started_at := started_at
       sources := sources
       total_rates := 0
       errors := errors
       mergedRates := all_rates
       savedSnapshot := none
       savedHistory := []
       success := !all_rates.isEmpty
       completed_at := clock t0 }, t0 + 1)
  else
    let main_source := mainSourceOf sources
    let metaO := some ("update_" ++ clock t0)
    let sc := save_current_rates clock (t0 + 1) all_rates main_source metaO
    let sh := save_to_history clock sc.2 existingHistory all_rates
      main_source metaO
    ({ started_at := started_at
       sources := sources
       total_rates := all_rates.length
       errors := errors
       mergedRates := all_rates
       savedSnapshot := some sc.1
       savedHistory := sh.2.1
       success := !all_rates.isEmpty
       completed_at := clock sh.2.2 }, sh.2.2 + 1)

/-- Sample snapshot entry used by concrete test inputs: a pair key with a
rate, the remaining attributes filled the way `save_current_rates` fills
them for a fixed timestamp and source. -/
def samplePair (k : String) (r : ℚ) : String × PairData :=
  (k, { rate := r
        updated_at := "2024-01-01T00:00:00"
        source := "test"
        from_currency := (splitPair k).1
        to_currency := (splitPair k).2 })

/-- Concrete deterministic clock for counterexamples: the n-th call of
`datetime.now()` observes a distinct timestamp. -/
def demoClock : ℕ → String
  | 0 => "T0"
  | 1 => "T1"
  | 2 => "T2"
  | 3 => "T3"
  | _ => "T4"

/-- The stat `RatesUpdater.run_update` stores for a failing source:
`{"status": "error", "error": str(e), "rates_count": 0}`. -/
def errorStat (msg : String) : SourceStat :=
  { status := "error", rates_count := 0, error := some msg, ratesPreview := [] }

/-- The error string stored in `statistics["sources"]["src"]` after a refresh
whose single source `src` failed with message `msg`. -/
def storedSourceError (msg : String) : String :=
  match dictLookup "src"
      ((run_update (fun _ => "T") 0 [("src", FetchResult.apiError msg)] []).1.sources) with
  | some st => st.error.getD ""
  | none => ""

/-! Helper lemmas about the dict model. -/

theorem dictLookup_cons {α : Type} (k a : String) (b : α)
    (rest : List (String × α)) :
    dictLookup k ((a, b) :: rest) = if a = k then some b else dictLookup k rest := rfl

theorem setPair_eq {α : Type} (k : String) (v b : α) :
    setPair k v (k, b) = (k, v) := by
  show (if k = k then (k, v) else (k, b)) = (k, v)
  rw [if_pos rfl]

theorem setPair_ne {α : Type} (k : String) (v : α) (a : String) (b : α)
    (h : a ≠ k) : setPair k v (a, b) = (a, b) := by
  show (if a = k then (k, v) else (a, b)) = (a, b)
  rw [if_neg h]

theorem lookup_map_set_self {α : Type} (k : String) (v : α) :
    ∀ d : List (String × α), (dictLookup k d).isSome →
      dictLookup k (d.map (setPair k v)) = some v
  | [], h => by simp [dictLookup] at h
  | (a, b) :: rest, h => by
    rw [List.map_cons]
    by_cases ha : a = k
    · subst ha
      rw [setPair_eq, dictLookup_cons, if_pos rfl]
    · rw [dictLookup_cons, if_neg ha] at h
      rw [setPair_ne k v a b ha, dictLookup_cons, if_neg ha]
      exact lookup_map_set_self k v rest h

theorem lookup_map_set_ne {α : Type} (k k' : String) (v : α) (hne : k' ≠ k) :
    ∀ d : List (String × α),
      dictLookup k (d.map (setPair k' v)) = dictLookup k d
  | [] => rfl
  | (a, b) :: rest => by
    rw [List.map_cons]
    by_cases ha : a = k'
    · rw [ha, setPair_eq, dictLookup_cons, dictLookup_cons, if_neg hne,
        if_neg hne]
      exact lookup_map_set_ne k k' v hne rest
    · rw [setPair_ne k' v a b ha, dictLookup_cons, dictLookup_cons]
      by_cases hak : a = k
      · rw [if_pos hak, if_pos hak]
      · rw [if_neg hak, if_neg hak]
        exact lookup_map_set_ne k k' v hne rest

theorem dictLookup_append_single {α : Type} (k k' : String) (v : α) :
    ∀ d : List (String × α),
      dictLookup k (d ++ [(k', v)]) =
        match dictLookup k d with
        | some w => some w
        | none => if k' = k then some v else none
  | [] => rfl
  | (a, b) :: rest => by
    rw [List.cons_append, dictLookup_cons, dictLookup_cons]
    by_cases ha : a = k
    · rw [if_pos ha, if_pos ha]
    · rw [if_neg ha, if_neg ha]
      exact dictLookup_append_single k k' v rest

theorem dictLookup_dictInsert {α : Type} (k k' : String) (v : α)
    (d : List (String × α)) :
    dictLookup k (dictInsert k' v d)
      = if k' = k then some v else dictLookup k d := by
  unfold dictInsert
  by_cases h : (dictLookup k' d).isSome
  · rw [if_pos h]
    by_cases hk : k' = k
    · subst hk
      rw [lookup_map_set_self k' v d h, if_pos rfl]
    · rw [lookup_map_set_ne k k' v hk d, if_neg hk]
  · rw [if_neg h, dictLookup_append_single]
    have hnone : dictLookup k' d = none := by
      cases hd : dictLookup k' d with
      | none => rfl
      | some w => exact absurd (by simp [hd]) h
    by_cases hk : k' = k
    · rw [hk] at hnone
      simp [hnone, hk]
    · cases hd : dictLookup k d with
      | none => simp [hk]
      | some w => simp [hk]

theorem dictLookup_dictUpdate {α : Type} (k : String) :
    ∀ (e d : List (String × α)),
      dictLookup k (dictUpdate d e) =
        match lookupLast k e with
        | some w => some w
        | none => dictLookup k d
  | [], d => rfl
  | (k', v) :: rest, d => by
    have step : dictUpdate d ((k', v) :: rest)
        = dictUpdate (dictInsert k' v d) rest := rfl
    have hc : lookupLast k ((k', v) :: rest)
        = match lookupLast k rest with
          | some w => some w
          | none => if k' = k then some v else none := rfl
    rw [step, dictLookup_dictUpdate k rest (dictInsert k' v d), hc]
    cases h : lookupLast k rest with
    | some w => rfl
    | none =>
      rw [dictLookup_dictInsert]
      by_cases hk : k' = k
      · rw [if_pos hk, if_pos hk]
      · rw [if_neg hk, if_neg hk]

theorem dictLookup_eq_none_iff {α : Type} (k : String) :
    ∀ d : List (String × α), dictLookup k d = none ↔ k ∉ d.map Prod.fst
  | [] => by simp [dictLookup]
  | (a, b) :: rest => by
    rw [dictLookup_cons, List.map_cons]
    by_cases ha : a = k
    · subst ha
      simp
    · rw [if_neg ha, dictLookup_eq_none_iff k rest]
      simp [Ne.symm ha]

theorem lookupLast_eq_dictLookup {α : Type} (k : String) :
    ∀ e : List (String × α), (e.map Prod.fst).Nodup →
      lookupLast k e = dictLookup k e
  | [], _ => rfl
  | (a, b) :: rest, h => by
    rw [List.map_cons, List.nodup_cons] at h
    obtain ⟨ha, hrest⟩ := h
    have hl : lookupLast k ((a, b) :: rest)
        = match lookupLast k rest with
          | some w => some w
          | none => if a = k then some b else none := rfl
    rw [hl, lookupLast_eq_dictLookup k rest hrest, dictLookup_cons]
    by_cases hak : a = k
    · subst hak
      rw [(dictLookup_eq_none_iff a rest).mpr ha]
    · cases hd : dictLookup k rest with
      | some w => simp [hak]
      | none => simp [hak]

theorem keys_map_setPair {α : Type} (k : String) (v : α)
    (d : List (String × α)) :
    (d.map (setPair k v)).map Prod.fst = d.map Prod.fst := by
  rw [List.map_map]
  apply List.map_congr_left
  intro p _
  by_cases hp : p.1 = k
  · simp [setPair, hp]
  · simp [setPair, hp]

theorem nodup_keys_dictInsert {α : Type} (k : String) (v : α)
    (d : List (String × α)) (h : (d.map Prod.fst).Nodup) :
    ((dictInsert k v d).map Prod.fst).Nodup := by
  unfold dictInsert
  by_cases hs : (dictLookup k d).isSome
  · rw [if_pos hs, keys_map_setPair]
    exact h
  · rw [if_neg hs, List.map_append]
    have hk : k ∉ d.map Prod.fst := by
      rw [← dictLookup_eq_none_iff]
      cases hd : dictLookup k d with
      | none => rfl
      | some w => exact absurd (by simp [hd]) hs
    simp [List.nodup_append, h, hk]

theorem nodup_keys_dictUpdate {α : Type} :
    ∀ (e d : List (String × α)), (d.map Prod.fst).Nodup →
      ((dictUpdate d e).map Prod.fst).Nodup
  | [], _, h => h
  | p :: rest, d, h =>
    nodup_keys_dictUpdate rest (dictInsert p.1 p.2 d)
      (nodup_keys_dictInsert p.1 p.2 d h)

theorem mem_dictInsert {α : Type} {p : String × α} {k : String} {v : α}
    {d : List (String × α)} (h : p ∈ dictInsert k v d) :
    p ∈ d ∨ p = (k, v) := by
  unfold dictInsert at h
  by_cases hs : (dictLookup k d).isSome
  · rw [if_pos hs] at h
    obtain ⟨q, hq, rfl⟩ := List.mem_map.mp h
    by_cases hqk : q.1 = k
    · right
      simp [setPair, hqk]
    · left
      simpa [setPair, hqk] using hq
  · rw [if_neg hs] at h
    rcases List.mem_append.mp h with h | h
    · exact Or.inl h
    · exact Or.inr (by simpa using h)

theorem dictInsert_of_lookup_none {α : Type} (k : String) (v : α)
    (d : List (String × α)) (h : dictLookup k d = none) :
    dictInsert k v d = d ++ [(k, v)] := by
  unfold dictInsert
  rw [if_neg]
  simp [h]

theorem foldl_dictInsert_map {α β : Type} (g : String × β → α) :
    ∀ (rates : List (String × β)) (acc : List (String × α)),
      (rates.map Prod.fst).Nodup →
      (∀ p ∈ rates, dictLookup p.1 acc = none) →
      rates.foldl (fun a p => dictInsert p.1 (g p) a) acc
        = acc ++ rates.map (fun p => (p.1, g p))
  | [], acc, _, _ => by simp
  | q :: rest, acc, hnd, hnone => by
    rw [List.map_cons, List.nodup_cons] at hnd
    obtain ⟨hq, hrest⟩ := hnd
    have h1 : dictLookup q.1 acc = none := hnone q (List.mem_cons_self q rest)
    rw [List.foldl_cons, dictInsert_of_lookup_none q.1 (g q) acc h1,
      foldl_dictInsert_map g rest (acc ++ [(q.1, g q)]) hrest ?_]
    · simp
    · intro p hp
      rw [dictLookup_append_single, hnone p (List.mem_cons_of_mem q hp)]
      have hne : q.1 ≠ p.1 := by
        intro hcontra
        exact hq (hcontra ▸ List.mem_map_of_mem Prod.fst hp)
      simp [hne]

theorem runLoop_merged_nodup_aux :
    ∀ (clients : List (String × FetchResult))
      (acc : List (String × ℚ) × List (String × SourceStat) × List String),
      (acc.1.map Prod.fst).Nodup →
      (((clients.foldl runStep acc).1).map Prod.fst).Nodup
  | [], _, h => h
  | c :: rest, acc, h => by
    rw [List.foldl_cons]
    apply runLoop_merged_nodup_aux rest
    cases hc : c.2 with
    | ok rates => simpa [runStep, hc] using nodup_keys_dictUpdate rates acc.1 h
    | apiError msg => simpa [runStep, hc] using h
    | otherError msg => simpa [runStep, hc] using h

theorem runLoop_merged_nodup (clients : List (String × FetchResult)) :
    ((runLoop clients).1.map Prod.fst).Nodup :=
  runLoop_merged_nodup_aux clients ([], [], []) (by simp)

theorem run_update_mergedRates (clock : ℕ → String) (tick : ℕ)
    (clients : List (String × FetchResult)) (existing : List HistRecord) :
    (run_update clock tick clients existing).1.mergedRates
      = (runLoop clients).1 := by
  unfold run_update
  by_cases he : (runLoop clients).1.isEmpty <;> simp [he]

theorem run_update_sources_eq (clock : ℕ → String) (tick : ℕ)
    (clients : List (String × FetchResult)) (existing : List HistRecord) :
    (run_update clock tick clients existing).1.sources
      = (runLoop clients).2.1 := by
  unfold run_update
  by_cases he : (runLoop clients).1.isEmpty <;> simp [he]

theorem run_update_saved_of_nonempty (clock : ℕ → String) (tick : ℕ)
    (clients : List (String × FetchResult)) (existing : List HistRecord)
    (he : (runLoop clients).1.isEmpty = false) :
    (run_update clock tick clients existing).1.savedSnapshot
      = some (save_current_rates clock (tick + 2) (runLoop clients).1
          (mainSourceOf (runLoop clients).2.1)
          (some ("update_" ++ clock (tick + 1)))).1
    ∧ (run_update clock tick clients existing).1.savedHistory
      = (save_to_history clock (tick + 3) existing (runLoop clients).1
          (mainSourceOf (runLoop clients).2.1)
          (some ("update_" ++ clock (tick + 1)))).2.1 := by
  unfold run_update
  simp [he, save_current_rates, save_to_history]

theorem save_current_rates_pairs (clock : ℕ → String) (tick : ℕ)
    (rates : List (String × ℚ)) (source : String) (metaO : Option String)
    (hnd : (rates.map Prod.fst).Nodup) :
    (save_current_rates clock tick rates source metaO).1.pairs
      = rates.map (fun p => (p.1,
          { rate := p.2
            updated_at := clock tick
            source := source
            from_currency := (splitPair p.1).1
            to_currency := (splitPair p.1).2 })) := by
  have h := foldl_dictInsert_map
    (fun p : String × ℚ =>
      ({ rate := p.2
         updated_at := clock tick
         source := source
         from_currency := (splitPair p.1).1
         to_currency := (splitPair p.1).2 } : PairData))
    rates [] hnd (fun p _ => rfl)
  simpa [save_current_rates] using h

theorem save_to_history_records (clock : ℕ → String) (tick : ℕ)
    (history : List HistRecord) (rates : List (String × ℚ)) (source : String)
    (metaO : Option String) :
    (save_to_history clock tick history rates source metaO).2.1
      = rates.map (fun p =>
          { id := historyRecordId p.1 (clock tick)
            from_currency := (splitPair p.1).1
            to_currency := (splitPair p.1).2
            rate := p.2
            timestamp := clock tick
            source := source
            rawPair := p.1
            meta := metaO }) := rfl

theorem runLoop_all_error :
    ∀ (clients : List (String × FetchResult))
      (acc : List (String × ℚ) × List (String × SourceStat) × List String),
      (∀ c ∈ clients, c.2.isError = true) →
      (clients.foldl runStep acc).1 = acc.1
  | [], _, _ => rfl
  | c :: rest, acc, hall => by
    have hc := hall c (List.mem_cons_self c rest)
    have hrest : ∀ d ∈ rest, d.2.isError = true :=
      fun d hd => hall d (List.mem_cons_of_mem c hd)
    rw [List.foldl_cons, runLoop_all_error rest (runStep acc c) hrest]
    cases hfr : c.2 with
    | ok rates =>
      rw [hfr] at hc
      simp [FetchResult.isError] at hc
    | apiError msg => simp [runStep, hfr]
    | otherError msg => simp [runStep, hfr]

theorem runLoop_all_error_status :
    ∀ (clients : List (String × FetchResult))
      (acc : List (String × ℚ) × List (String × SourceStat) × List String),
      (∀ c ∈ clients, c.2.isError = true) →
      (∀ p ∈ acc.2.1, p.2.status = "error") →
      ∀ p ∈ (clients.foldl runStep acc).2.1, p.2.status = "error"
  | [], _, _, hacc => hacc
  | c :: rest, acc, hall, hacc => by
    have hc := hall c (List.mem_cons_self c rest)
    have hrest : ∀ d ∈ rest, d.2.isError = true :=
      fun d hd => hall d (List.mem_cons_of_mem c hd)
    rw [List.foldl_cons]
    apply runLoop_all_error_status rest (runStep acc c) hrest
    intro p hp
    cases hfr : c.2 with
    | ok rates =>
      rw [hfr] at hc
      simp [FetchResult.isError] at hc
    | apiError msg =>
      simp only [runStep, hfr] at hp
      rcases mem_dictInsert hp with h | h
      · exact hacc p h
      · rw [h]
    | otherError msg =>
      simp only [runStep, hfr] at hp
      rcases mem_dictInsert hp with h | h
      · exact hacc p h
      · rw [h]

theorem runLoop_lookup_stable :
    ∀ (clients : List (String × FetchResult))
      (acc : List (String × ℚ) × List (String × SourceStat) × List String)
      (n : String), n ∉ clients.map Prod.fst →
      dictLookup n ((clients.foldl runStep acc).2.1) = dictLookup n acc.2.1
  | [], _, _, _ => rfl
  | c :: rest, acc, n, h => by
    rw [List.map_cons, List.mem_cons, not_or] at h
    obtain ⟨h1, h2⟩ := h
    have hc1 : c.1 ≠ n := fun hh => h1 hh.symm
    rw [List.foldl_cons, runLoop_lookup_stable rest (runStep acc c) n h2]
    cases hfr : c.2 <;>
      simp [runStep, hfr, dictLookup_dictInsert, hc1]

theorem runLoop_failed_source_stat :
    ∀ (clients : List (String × FetchResult))
      (acc : List (String × ℚ) × List (String × SourceStat) × List String)
      (name msg : String),
      (clients.map Prod.fst).Nodup →
      ((name, FetchResult.apiError msg) ∈ clients
        ∨ (name, FetchResult.otherError msg) ∈ clients) →
      dictLookup name ((clients.foldl runStep acc).2.1)
        = some (errorStat msg)
  | [], _, _, _, _, hmem => by
    rcases hmem with h | h <;> simp at h
  | c :: rest, acc, name, msg, hnd, hmem => by
    rw [List.map_cons, List.nodup_cons] at hnd
    obtain ⟨hkey, hrest⟩ := hnd
    rw [List.foldl_cons]
    rcases hmem with hmem | hmem
    · rcases List.mem_cons.mp hmem with hc | hmemrest
      · have hnotin : name ∉ rest.map Prod.fst := by
          rw [← hc] at hkey
          exact hkey
        rw [runLoop_lookup_stable rest (runStep acc c) name hnotin, ← hc]
        simp [runStep, dictLookup_dictInsert, errorStat]
      · exact runLoop_failed_source_stat rest (runStep acc c) name msg hrest
          (Or.inl hmemrest)
    · rcases List.mem_cons.mp hmem with hc | hmemrest
      · have hnotin : name ∉ rest.map Prod.fst := by
          rw [← hc] at hkey
          exact hkey
        rw [runLoop_lookup_stable rest (runStep acc c) name hnotin, ← hc]
        simp [runStep, dictLookup_dictInsert, errorStat]
      · exact runLoop_failed_source_stat rest (runStep acc c) name msg hrest
          (Or.inr hmemrest)

/-! Claim theorems. -/

/-- C1: the spec says the two-hop conversion returns
`rate(base→to) / rate(base→from)`, i.e. `get_rate(BTC, EUR) = 60000 / 1.1`
for the snapshot `{BTC_USD: 60000, EUR_USD: 1.1}`.  The code computes
`usd_rate_to / usd_rate_from = 1.1 / 60000` — the reciprocal of the
specified value — while the sibling `_convert_via_usd` in the same class
converts 1 BTC into `60000 / 1.1` EUR, so the via-USD branch of
`get_exchange_rate` inverts the rate. -/
theorem claim1_two_hop_rate_inverted :
    get_exchange_rate
        [samplePair "BTC_USD" 60000, samplePair "EUR_USD" (11/10)]
        "BTC" "EUR"
      = Except.ok (some (11/600000, "calculated_via_USD"))
    ∧ ((11 : ℚ)/600000) ≠ 600000/11
    ∧ _convert_via_usd
        [samplePair "BTC_USD" 60000, samplePair "EUR_USD" (11/10)]
        1 "BTC" "EUR"
      = Except.ok (600000/11) := by
  refine ⟨?_, by norm_num, ?_⟩
  · simp [get_exchange_rate, _get_rate_via_usd, pyDiv, dictLookup, samplePair,
      Bind.bind, Except.bind, Except.map]
    norm_num
  · simp [_convert_via_usd, convertUsdToTarget, pyDiv, dictLookup, samplePair,
      Bind.bind, Except.bind]
    norm_num

/-- C2 counterexample: in one `run_update` cycle the snapshot is written
with the third clock reading and the history with the fourth, so the claim
that all records of the cycle carry one common timestamp fails whenever the
two `datetime.now()` calls observe different instants. -/
theorem claim2_counterexample :
    ((run_update demoClock 0 [("mock", FetchResult.ok [("BTC_USD", 60000)])]
        []).1.savedSnapshot.map RatesData.last_refresh) = some (some "T2")
    ∧ (run_update demoClock 0 [("mock", FetchResult.ok [("BTC_USD", 60000)])]
        []).1.savedHistory.map HistRecord.timestamp = ["T3"]
    ∧ ("T2" : String) ≠ "T3" := by
  refine ⟨by decide, by decide, by decide⟩

/-- C2 amended: within one `run_update` cycle the snapshot and history
writes use the same rate set — every pair recorded in the cycle's history
appears in the snapshot with the same rate and vice versa — and each write
uses a single internal timestamp; but the two writes read the clock
separately (`datetime.now()` in `save_current_rates`, then again in
`save_to_history`), so the snapshot carries the reading at tick+2 and the
history the reading at tick+3, which coincide only if the clock returns the
same value on both calls. -/
theorem claim2_cycle_consistency (clock : ℕ → String) (tick : ℕ)
    (clients : List (String × FetchResult)) (existing : List HistRecord)
    (snap : RatesData)
    (h : (run_update clock tick clients existing).1.savedSnapshot
      = some snap) :
    snap.pairs.map (fun q => (q.1, q.2.rate))
        = (run_update clock tick clients existing).1.mergedRates
    ∧ snap.last_refresh = some (clock (tick + 2))
    ∧ (∀ q ∈ snap.pairs, q.2.updated_at = clock (tick + 2))
    ∧ (run_update clock tick clients existing).1.savedHistory.map
        (fun rec => (rec.rawPair, rec.rate))
        = (run_update clock tick clients existing).1.mergedRates
    ∧ (∀ rec ∈ (run_update clock tick clients existing).1.savedHistory,
        rec.timestamp = clock (tick + 3)) := by
  by_cases he : (runLoop clients).1.isEmpty
  · have hnone : (run_update clock tick clients existing).1.savedSnapshot
        = none := by
      unfold run_update
      simp [he]
    rw [hnone] at h
    cases h
  · rw [Bool.not_eq_true] at he
    obtain ⟨hs, hh⟩ := run_update_saved_of_nonempty clock tick clients
      existing he
    rw [hs] at h
    injection h with h
    subst h
    have hnd := runLoop_merged_nodup clients
    refine ⟨?_, rfl, ?_, ?_, ?_⟩
    · rw [run_update_mergedRates,
        save_current_rates_pairs clock (tick + 2) (runLoop clients).1
          (mainSourceOf (runLoop clients).2.1)
          (some ("update_" ++ clock (tick + 1))) hnd, List.map_map]
      exact List.map_id' _
    · intro q hq
      rw [save_current_rates_pairs clock (tick + 2) (runLoop clients).1
          (mainSourceOf (runLoop clients).2.1)
          (some ("update_" ++ clock (tick + 1))) hnd] at hq
      obtain ⟨p, _, rfl⟩ := List.mem_map.mp hq
      rfl
    · rw [run_update_mergedRates, hh, save_to_history_records, List.map_map]
      exact List.map_id' _
    · intro rec hrec
      rw [hh, save_to_history_records] at hrec
      obtain ⟨p, _, rfl⟩ := List.mem_map.mp hrec
      rfl

/-- C2 witness: the amended theorem applied to a concrete one-source cycle
with the demo clock; the snapshot holds the third clock reading. -/
theorem claim2_witness :
    ({ last_refresh := some "T2"
       source := some "mock"
       pairs := [("BTC_USD",
         { rate := 60000
           updated_at := "T2"
           source := "mock"
           from_currency := "BTC"
           to_currency := "USD" })]
       meta := some "update_T1" } : RatesData).last_refresh
      = some (demoClock 2) :=
  (claim2_cycle_consistency demoClock 0
    [("mock", FetchResult.ok [("BTC_USD", 60000)])] [] _ (by decide)).2.1

/-- C3 counterexample: a stored zero rate is not always treated as "rate
unavailable" — the conversion engine's reverse-pair branch computes
`1 / rate_data["rate"]` without a zero guard, and the via-USD helper's
reverse branch likewise, so both raise `ZeroDivisionError` on a zero rate. -/
theorem claim3_counterexample :
    get_exchange_rate [samplePair "EUR_BTC" 0] "BTC" "EUR" = Except.error ()
    ∧ _get_rate_via_usd [samplePair "USD_EUR" 0] "EUR" = Except.error () := by
  exact ⟨rfl, rfl⟩

/-- C3 amended: the cache store's `get_rate` reverse branch does treat a
zero stored rate as unavailable (returns `None`), and the conversion
engine's via-base combination guards with Python truthiness so a zero leg
value yields "unresolved" instead of dividing; but the engine's
reverse-pair branch and the via-USD helper's reverse branch divide by the
stored rate unguarded (see the counterexample). -/
theorem claim3_zero_rate_guards :
    (∀ (pairs : List (String × PairData)) (a b : String) (pd : PairData),
      b ≠ "" → a ≠ b →
      dictLookup (a ++ "_" ++ b) pairs = none →
      dictLookup (b ++ "_" ++ a) pairs = some pd → pd.rate = 0 →
      get_rate pairs a (some b) = none)
    ∧ (∀ (rates : List (String × PairData)) (f t : String),
      dictLookup (f ++ "_" ++ t) rates = none →
      dictLookup (t ++ "_" ++ f) rates = none →
      _get_rate_via_usd rates f = Except.ok (some 0) →
      (∃ u, _get_rate_via_usd rates t = Except.ok u) →
      get_exchange_rate rates f t = Except.ok none) := by
  constructor
  · intro pairs a b pd hb hab hdir hrev hzero
    unfold get_rate
    simp [hb, hab, hdir, hrev, hzero]
  · intro rates f t hdir hrev hf hex
    obtain ⟨u, hu⟩ := hex
    unfold get_exchange_rate
    simp only [hdir, hrev]
    simp [Bind.bind, Except.bind, hf, hu]
    cases u with
    | none => simp
    | some x => simp

/-- C3 witness: the amended theorem at concrete inputs — a zero reverse
rate in the store yields `None`, and a zero via-USD leg in the engine
yields an unresolved (not erroring) lookup. -/
theorem claim3_witness :
    get_rate [samplePair "B_A" 0] "A" (some "B") = none
    ∧ get_exchange_rate [samplePair "A_USD" 0] "A" "B" = Except.ok none :=
  ⟨claim3_zero_rate_guards.1 [samplePair "B_A" 0] "A" "B"
      (samplePair "B_A" 0).2 (by decide) (by decide) (by decide) (by decide)
      (by decide),
   claim3_zero_rate_guards.2 [samplePair "A_USD" 0] "A" "B"
      (by decide) (by decide) rfl ⟨none, rfl⟩⟩

/-- C4 counterexample: the inverse-product law fails as a universal
statement about snapshots — when both directions of a pair are stored with
inconsistent rates the two lookups multiply to 6, and when the stored rate
is zero the reverse lookup returns `None` (not a number). -/
theorem claim4_counterexample :
    get_rate [samplePair "A_B" 2, samplePair "B_A" 3] "A" (some "B") = some 2
    ∧ get_rate [samplePair "A_B" 2, samplePair "B_A" 3] "B" (some "A")
        = some 3
    ∧ ((2 : ℚ) * 3 ≠ 1)
    ∧ get_rate [samplePair "A_B" 0] "A" (some "B") = some 0
    ∧ get_rate [samplePair "A_B" 0] "B" (some "A") = none := by
  refine ⟨by decide, by decide, by norm_num, by decide, by decide⟩

/-- C4 amended: for distinct currencies whose pair is stored in exactly one
direction with a nonzero rate, `get_rate` in both directions returns a
number and the product is exactly 1 in the rational model (within
floating-point tolerance in the code). -/
theorem claim4_inverse_product (pairs : List (String × PairData))
    (a b : String) (pd : PairData)
    (hab : a ≠ b) (ha : a ≠ "") (hb : b ≠ "")
    (hdir : dictLookup (a ++ "_" ++ b) pairs = some pd)
    (hz : pd.rate ≠ 0)
    (hrev : dictLookup (b ++ "_" ++ a) pairs = none) :
    get_rate pairs a (some b) = some pd.rate
    ∧ get_rate pairs b (some a) = some (1 / pd.rate)
    ∧ pd.rate * (1 / pd.rate) = 1 := by
  refine ⟨?_, ?_, ?_⟩
  · unfold get_rate
    simp [hb, hab, hdir]
  · unfold get_rate
    simp [ha, Ne.symm hab, hrev, hdir, hz]
  · rw [mul_one_div, div_self hz]

/-- C4 witness: the amended theorem at the one-direction snapshot
`{A_B: 2}` — the reverse lookup is the reciprocal and the product is 1. -/
theorem claim4_witness :
    get_rate [samplePair "A_B" 2] "B" (some "A")
      = some (1 / (samplePair "A_B" 2).2.rate) :=
  (claim4_inverse_product [samplePair "A_B" 2] "A" "B" (samplePair "A_B" 2).2
    (by decide) (by decide) (by decide) (by decide) (by decide)
    (by decide)).2.1

/-- C5: `run_update` is a total function of its clients' outcomes (client
exceptions are caught by the loop, so a refresh never raises); when every
configured source fails, the merged map is empty, nothing is persisted,
every per-source outcome is marked `"error"`, `total_rates = 0` and
`success = false` — the zero-rates condition is reported in the returned
statistics, not thrown. -/
theorem claim5_run_update_never_raises (clock : ℕ → String) (tick : ℕ)
    (clients : List (String × FetchResult)) (existing : List HistRecord)
    (h : ∀ c ∈ clients, c.2.isError = true) :
    (run_update clock tick clients existing).1.mergedRates = []
    ∧ (run_update clock tick clients existing).1.total_rates = 0
    ∧ (run_update clock tick clients existing).1.success = false
    ∧ (run_update clock tick clients existing).1.savedSnapshot = none
    ∧ (run_update clock tick clients existing).1.savedHistory = []
    ∧ ∀ p ∈ (run_update clock tick clients existing).1.sources,
        p.2.status = "error" := by
  have hm : (runLoop clients).1 = [] := runLoop_all_error clients ([], [], []) h
  have he : (runLoop clients).1.isEmpty = true := by
    rw [hm]
    rfl
  refine ⟨?_, ?_, ?_, ?_, ?_, ?_⟩
  · rw [run_update_mergedRates, hm]
  · unfold run_update
    simp [he]
  · unfold run_update
    simp [he]
  · unfold run_update
    simp [he]
  · unfold run_update
    simp [he]
  · rw [run_update_sources_eq]
    exact runLoop_all_error_status clients ([], [], []) h (by simp)

/-- C5 witness: a refresh whose single source fails reports
`success = false` instead of raising. -/
theorem claim5_witness :
    (run_update demoClock 0 [("a", FetchResult.apiError "boom")] []).1.success
      = false :=
  (claim5_run_update_never_raises demoClock 0
    [("a", FetchResult.apiError "boom")] [] (by decide)).2.2.1

/-- C6: `is_cache_fresh` returns `true` iff the loaded snapshot has a
truthy `last_refresh` that parses to a time `t` with `now - t ≤ TTL`
(so it is `false` when no snapshot exists or the timestamp cannot be
parsed); at the boundary with the configured default TTL of 300 seconds, an
age of exactly 300 is fresh and 301 is stale. -/
theorem claim6_is_fresh_spec :
    (∀ decode parseIso now ttl file,
      is_cache_fresh decode parseIso now ttl file = true ↔
      ∃ s t, (load_current_rates decode file).last_refresh = some s
        ∧ s ≠ "" ∧ parseIso s = some t ∧ now - t ≤ ttl)
    ∧ (∀ decode parseIso now file s t,
      (load_current_rates decode file).last_refresh = some s → s ≠ "" →
      parseIso s = some t → now - t = 300 →
      is_cache_fresh decode parseIso now CACHE_TTL_SECONDS file = true)
    ∧ (∀ decode parseIso now file s t,
      (load_current_rates decode file).last_refresh = some s → s ≠ "" →
      parseIso s = some t → now - t = 301 →
      is_cache_fresh decode parseIso now CACHE_TTL_SECONDS file = false)
    ∧ (∀ decode parseIso now ttl,
      is_cache_fresh decode parseIso now ttl none = false) := by
  refine ⟨?_, ?_, ?_, ?_⟩
  · intro decode parseIso now ttl file
    unfold is_cache_fresh
    cases h : (load_current_rates decode file).last_refresh with
    | none => simp [h]
    | some s =>
      by_cases hs : s = ""
      · subst hs
        simp
      · cases hp : parseIso s with
        | none => simp [hs, hp]
        | some t => simp [hs, hp]
  · intro decode parseIso now file s t hlr hs hp h300
    unfold is_cache_fresh
    rw [hlr]
    simp [hs, hp, h300, CACHE_TTL_SECONDS]
  · intro decode parseIso now file s t hlr hs hp h301
    unfold is_cache_fresh
    rw [hlr]
    have h31 : ¬ ((301 : ℚ) ≤ 300) := by norm_num
    simp [hs, hp, h301, CACHE_TTL_SECONDS, h31]
  · intro decode parseIso now ttl
    rfl

/-- C6 witness: the boundary part of the claim theorem at a concrete
parseable snapshot aged exactly 300 seconds. -/
theorem claim6_witness :
    is_cache_fresh
      (fun _ => some { last_refresh := some "LR", source := none,
                       pairs := [], meta := none })
      (fun s => if s = "LR" then some 0 else none)
      300 CACHE_TTL_SECONDS (some "f") = true :=
  claim6_is_fresh_spec.2.1
    (fun _ => some { last_refresh := some "LR", source := none,
                     pairs := [], meta := none })
    (fun s => if s = "LR" then some 0 else none)
    300 (some "f") "LR" 0 rfl (by decide) (by decide) (by norm_num)

/-- C7: for every state of the snapshot file — absent, or with content the
JSON decoder rejects — `load_current_rates` does not raise and returns the
empty snapshot (`pairs = {}`, `last_refresh = None`); malformed content is
treated exactly as absence. -/
theorem claim7_load_snapshot_resilient (decode : String → Option RatesData)
    (file : Option String)
    (h : file = none ∨ ∃ s, file = some s ∧ decode s = none) :
    load_current_rates decode file = emptyRatesData := by
  rcases h with h | ⟨s, rfl, hd⟩
  · rw [h]
    rfl
  · simp [load_current_rates, hd]

/-- C7 witness: non-JSON garbage in the snapshot file yields the empty
snapshot. -/
theorem claim7_witness :
    load_current_rates (fun _ => none) (some "garbage") = emptyRatesData :=
  claim7_load_snapshot_resilient (fun _ => none) (some "garbage")
    (Or.inr ⟨"garbage", rfl, rfl⟩)

/-- C8: the aggregator merge is deterministic in the fixed client sequence
with last writer wins — for source order `[A, B]` both reporting the same
pair key with different rates, the merged map holds B's rate. -/
theorem claim8_merge_last_writer_wins (clock : ℕ → String) (tick : ℕ)
    (nameA nameB : String) (ratesA ratesB : List (String × ℚ))
    (existing : List HistRecord) (k : String) (vA vB : ℚ)
    (hA : dictLookup k ratesA = some vA)
    (hB : dictLookup k ratesB = some vB)
    (hAB : vA ≠ vB)
    (hnd : (ratesB.map Prod.fst).Nodup) :
    dictLookup k ((run_update clock tick
        [(nameA, FetchResult.ok ratesA), (nameB, FetchResult.ok ratesB)]
        existing).1.mergedRates) = some vB := by
  rw [run_update_mergedRates]
  have hloop : (runLoop
      [(nameA, FetchResult.ok ratesA), (nameB, FetchResult.ok ratesB)]).1
      = dictUpdate (dictUpdate [] ratesA) ratesB := rfl
  rw [hloop, dictLookup_dictUpdate, lookupLast_eq_dictLookup k ratesB hnd, hB]

/-- C8 witness: sources A and B both reporting `X_Y` (rates 1 and 2); the
merged map holds B's value 2. -/
theorem claim8_witness :
    dictLookup "X_Y" ((run_update demoClock 0
        [("A", FetchResult.ok [("X_Y", 1)]), ("B", FetchResult.ok [("X_Y", 2)])]
        []).1.mergedRates) = some 2 :=
  claim8_merge_last_writer_wins demoClock 0 "A" "B"
    [("X_Y", 1)] [("X_Y", 2)] [] "X_Y" 1 2 rfl rfl (by norm_num) (by decide)

/-- C9 counterexample: there is no fixed bound on the error string stored
in the per-source outcome — `run_update` stores `str(e)` verbatim, so for
every candidate bound a longer exception message exceeds it (truncation to
60 characters happens only in the CLI display layer). -/
theorem claim9_counterexample :
    ¬ ∃ N : ℕ, ∀ msg : String, (storedSourceError msg).length ≤ N := by
  rintro ⟨N, h⟩
  have heq : storedSourceError (String.mk (List.replicate (N + 1) 'a'))
      = String.mk (List.replicate (N + 1) 'a') := rfl
  have hlen := h (String.mk (List.replicate (N + 1) 'a'))
  rw [heq] at hlen
  have hN : (String.mk (List.replicate (N + 1) 'a')).length = N + 1 := by
    simp [String.length]
  rw [hN] at hlen
  omega

/-- C9 amended: for every source that fails during a refresh (either
`except` branch), the per-source outcome records status `"error"` together
with the exception message stored verbatim and in full — `rates_count = 0`
and `error = str(e)` — with no truncation at storage time. -/
theorem claim9_error_stored_verbatim (clock : ℕ → String) (tick : ℕ)
    (clients : List (String × FetchResult)) (existing : List HistRecord)
    (name msg : String)
    (hnd : (clients.map Prod.fst).Nodup)
    (hmem : (name, FetchResult.apiError msg) ∈ clients
      ∨ (name, FetchResult.otherError msg) ∈ clients) :
    dictLookup name ((run_update clock tick clients existing).1.sources)
      = some (errorStat msg) := by
  rw [run_update_sources_eq]
  exact runLoop_failed_source_stat clients ([], [], []) name msg hnd hmem

/-- C9 witness: a failing source `src` with message `boom` is recorded with
status `error` and the verbatim message. -/
theorem claim9_witness :
    dictLookup "src" ((run_update demoClock 0
        [("src", FetchResult.apiError "boom")] []).1.sources)
      = some (errorStat "boom") :=
  claim9_error_stored_verbatim demoClock 0
    [("src", FetchResult.apiError "boom")] [] "src" "boom" (by decide)
    (Or.inl (List.mem_cons_self _ _))

/-- C10: `load_history` with `limit = 0` returns the entire sorted and
filtered history — the Python truthiness test `if limit:` makes `limit=0`
behave identically to passing no limit at all. -/
theorem claim10_limit_zero_full_history (history : List HistRecord)
    (currency : Option String) :
    load_history history (some 0) currency
      = load_history history none currency := by
  unfold load_history
  simp
